import Mathlib

/-!
Shallow embedding of `src/server.js` of content-warehouse-api: an Express HTTP
query layer over a `content` table (Postgres) with a cache-aside Redis cache.

Modelling conventions:
* A database row is `Rec`; only the columns the routes read are modelled, and
  column projection in SELECT lists is elided (handlers return whole rows).
* `req.query` is modelled as an ordered association list `List (String × String)`
  where the cache key needs the raw query (`JSON.stringify(req.query)`), and as a
  typed parameter structure where the handler consumes the values.  Numeric
  parameters (`page`, `limit`) are modelled as `Option Int`, standing for requests
  whose query-string values are integer numerals (JavaScript coerces the strings
  numerically before use).
* Awaited redis / pg calls that can reject are modelled by `Except Unit`
  outcomes supplied in an `Env`; a rejection propagates to the handler's
  `try/catch` which produces the 500 response, exactly as in the source.
* Each handler returns its `Outcome` together with the list of external
  `Effect`s it attempted (cache reads, cache writes with TTL, store queries
  with their parameter vectors), in program order.
* `JSON.stringify`/`JSON.parse` round-tripping of response bodies through the
  cache is modelled as the identity on the structured `Body` value (the spec,
  §4.2, requires serialization to be lossless); the string-level
  `JSON.stringify` of `req.query` used for the list cache key is modelled
  character-exactly (control-character escapes elided; the statements that rely
  on it restrict attention to printable, quote-free, backslash-free strings).
* `ILIKE '%x%'` is modelled as case-insensitive substring containment (the SQL
  wildcard meaning of `%`/`_` occurring inside `x` itself is elided).
* Postgres rejects a negative LIMIT/OFFSET argument; that rejection is the
  `internalError` branch guarded by `limit < 0 ∨ offset < 0` in the handlers.
* `new Date()` timestamps (`last_updated`) are wall-clock and are omitted.
-/

namespace CW

/-- Row of the `content` table, restricted to the columns the routes read.
All columns except `id` and `created_date` are nullable. -/
structure Rec where
  id : String
  title : Option String
  createdDate : Nat
  sourceType : Option String
  mediaType : Option String
  fileFormat : Option String
  authorName : Option String
  contentText : Option String
  aiTopics : Option String
  aiProcessingStatus : Option String
  wordCount : Option Nat
  deriving DecidableEq, Repr

/-! ### Cache keys (server.js lines 82, 162, 198, 249) -/

/-- Escaping performed by `JSON.stringify` on the quote and backslash
characters (escapes of control characters are elided). -/
def escChar (c : Char) : List Char :=
  if c = '"' then ['\\', '"'] else if c = '\\' then ['\\', '\\'] else [c]

/-- Body of a JSON string literal: every character escaped. -/
def jsonEscape (s : String) : String := String.mk (s.data.flatMap escChar)

/-- JSON string literal. -/
def jsonQuote (s : String) : String := "\"" ++ jsonEscape s ++ "\""

/-- One `"key":"value"` member of a stringified object. -/
def renderPair (kv : String × String) : String :=
  jsonQuote kv.1 ++ ":" ++ jsonQuote kv.2

/-- Members after the first, each preceded by a comma. -/
def renderRest : List (String × String) → String
  | [] => ""
  | kv :: rest => "," ++ renderPair kv ++ renderRest rest

/-- Comma-separated members of a stringified object. -/
def renderPairs : List (String × String) → String
  | [] => ""
  | kv :: rest => renderPair kv ++ renderRest rest

/-- `JSON.stringify` of a flat string-valued object whose properties appear in
insertion order (the order of `req.query`). -/
def jsonStringifyObj (q : List (String × String)) : String :=
  "\x7b" ++ renderPairs q ++ "\x7d"

/-- Cache key of the list endpoint: `content:${JSON.stringify(req.query)}`
(server.js line 82). -/
def listCacheKey (q : List (String × String)) : String :=
  "content:" ++ jsonStringifyObj q

/-- Cache key of the get-by-id endpoint: `content:${id}` (server.js line 162). -/
def getByIdCacheKey (id : String) : String := "content:" ++ id

/-- Rendering of a possibly-missing query value inside a template literal:
JavaScript renders `undefined` as the string "undefined". -/
def jsTemplate : Option String → String
  | none => "undefined"
  | some s => s

/-- Cache key of the search endpoint:
`search:${q}:${type}:page:${page}:limit:${limit}` (server.js line 198). -/
def searchCacheKey (q : String) (type? : Option String) (page limit : Int) : String :=
  "search:" ++ q ++ ":" ++ jsTemplate type? ++ ":page:" ++ toString page ++
    ":limit:" ++ toString limit

/-- Cache key of the stats endpoint (server.js line 249). -/
def statsCacheKey : String := "stats:warehouse"

/-! ### Router (Express registration order, server.js lines 54–334)

Express matches GET routes in registration order; a `:name` pattern segment
matches any single path segment.  `dispatch` returns the first matching route
and its parameter bindings. -/

/-- One segment of a route pattern: a literal or a named `:param`. -/
inductive Seg
  | lit (s : String)
  | param (s : String)
  deriving DecidableEq, Repr

/-- Does a pattern segment match a concrete path segment? -/
def segMatches : Seg → String → Bool
  | .lit l, s => l == s
  | .param _, _ => true

/-- Does a route pattern match a full segmented path? -/
def patMatches : List Seg → List String → Bool
  | [], [] => true
  | p :: ps, s :: ss => segMatches p s && patMatches ps ss
  | _, _ => false

/-- Parameter bindings collected by a successful match. -/
def patBindings : List Seg → List String → List (String × String)
  | .param n :: ps, s :: ss => (n, s) :: patBindings ps ss
  | _ :: ps, _ :: ss => patBindings ps ss
  | _, _ => []

/-- The GET routes of server.js in their registration order. -/
def routesInOrder : List (String × List Seg) :=
  [ ("health", [.lit "api", .lit "health"])
  , ("list", [.lit "api", .lit "content"])
  , ("getById", [.lit "api", .lit "content", .param "id"])
  , ("search", [.lit "api", .lit "search"])
  , ("stats", [.lit "api", .lit "stats"])
  , ("recent", [.lit "api", .lit "content", .lit "recent"])
  , ("byAuthor", [.lit "api", .lit "content", .lit "by-author"]) ]

/-- First-match dispatch over the registered routes: the handler name and the
path-parameter bindings for a segmented request path. -/
def dispatch (segs : List String) : Option (String × List (String × String)) :=
  (routesInOrder.find? fun r => patMatches r.2 segs).map
    fun r => (r.1, patBindings r.2 segs)

/-! ### Shared query semantics -/

/-- Does `hay` contain `pat` as a contiguous sublist? -/
def containsSub : List Char → List Char → Bool
  | [], pat => pat.isEmpty
  | h :: t, pat => pat.isPrefixOf (h :: t) || containsSub t pat

/-- Case-insensitive substring containment of `pat` in `hay`
(the SQL semantics of `hay ILIKE '%pat%'` for wildcard-free `pat`). -/
def strContainsCI (hay pat : String) : Bool :=
  containsSub hay.toLower.data pat.toLower.data

/-- `field ILIKE '%pat%'` over a nullable column: NULL matches nothing. -/
def ilikeSub (pat : String) (field : Option String) : Bool :=
  match field with
  | none => false
  | some s => strContainsCI s pat

/-- Insert one row into a list sorted by `created_date` descending. -/
def insertByDate (r : Rec) : List Rec → List Rec
  | [] => [r]
  | x :: xs =>
    if x.createdDate ≤ r.createdDate then r :: x :: xs else x :: insertByDate r xs

/-- `ORDER BY created_date DESC` over a row set. -/
def sortByDateDesc (rows : List Rec) : List Rec :=
  rows.foldr insertByDate []

/-- `(source_type = $n OR media_type = $n)` — the `type` filter used by the
list, search and recent endpoints. -/
def typeMatches (t : String) (r : Rec) : Bool :=
  r.sourceType == some t || r.mediaType == some t

/-! ### Handler plumbing -/

/-- Value bound to a positional query parameter sent to the store (numeric
query-string values reach Postgres numerically). -/
inductive PgVal
  | int (i : Int)
  | str (s : String)
  deriving DecidableEq, Repr

/-- Pagination object of the list response (server.js lines 138–143).
`pages` is `Math.ceil(total / limit)`, exact rational ceiling on integer
inputs. -/
structure Pagination where
  page : Int
  limit : Int
  total : Nat
  pages : Int
  deriving DecidableEq, Repr

/-- Echoed filters of the list response. -/
structure ListFilters where
  type : Option String
  format : Option String
  author : Option String
  deriving DecidableEq, Repr

/-- Body of a successful list response. -/
structure ListResponse where
  content : List Rec
  pagination : Pagination
  filters : ListFilters
  deriving DecidableEq, Repr

/-- Body of a successful search response. -/
structure SearchResponse where
  query : String
  type : String
  results : List Rec
  count : Nat
  deriving DecidableEq, Repr

/-- Body of a successful stats response (`last_updated` is wall-clock and
omitted). -/
structure StatsResponse where
  total_content : Nat
  content_by_source_type : List (String × Nat)
  content_by_media_type : List (String × Nat)
  processed_content : Nat
  pending_content : Nat
  average_word_count : Int
  latest_content : Option Nat
  deriving DecidableEq, Repr

/-- Body of a successful recent-content response. -/
structure RecentResponse where
  recent_content : List Rec
  count : Nat
  type : String
  deriving DecidableEq, Repr

/-- Body of a successful by-author response. -/
structure ByAuthorResponse where
  author : String
  content : List Rec
  count : Nat
  deriving DecidableEq, Repr

/-- A JSON response body, as the structured value it (de)serializes to. -/
inductive Body
  | list (r : ListResponse)
  | record (r : Rec)
  | search (r : SearchResponse)
  | stats (r : StatsResponse)
  | recent (r : RecentResponse)
  | byAuthor (r : ByAuthorResponse)
  deriving DecidableEq, Repr

/-- HTTP outcome of one handler invocation. -/
inductive Outcome
  | ok (body : Body)
  | badRequest (msg : String)
  | notFound (msg : String)
  | internalError
  deriving DecidableEq, Repr

/-- External call attempted by a handler, in program order. -/
inductive Effect
  | cacheGet (key : String)
  | cacheSet (key : String) (ttl : Nat) (value : Body)
  | storeQuery (args : List PgVal)
  deriving DecidableEq, Repr

/-- Outcomes of the awaited external calls a request can make: a `.error`
models the corresponding client rejecting (redis get, pg query, redis setEx);
a rejection lands in the handler's catch block. -/
structure Env where
  cacheGetResult : Except Unit (Option Body)
  store : Except Unit (List Rec)
  cacheSetResult : Except Unit Unit
  deriving Repr

/-- Store queries of a trace, with their argument vectors. -/
def storeQueries (t : List Effect) : List (List PgVal) :=
  t.filterMap fun e =>
    match e with
    | .storeQuery args => some args
    | _ => none

/-- Cache writes of a trace, as (key, ttl, value) triples. -/
def cacheWrites (t : List Effect) : List (String × Nat × Body) :=
  t.filterMap fun e =>
    match e with
    | .cacheSet k ttl b => some (k, ttl, b)
    | _ => none

/-- TTLs of the cache writes of a trace. -/
def cacheSetTTLs (t : List Effect) : List Nat :=
  (cacheWrites t).map fun w => w.2.1

/-- Cache operations (reads and writes) of a trace. -/
def cacheOps (t : List Effect) : List Effect :=
  t.filter fun e =>
    match e with
    | .storeQuery _ => false
    | _ => true

/-! ### GET /api/content — list with filters (server.js lines 76–155) -/

/-- Typed view of the query parameters the list handler destructures. -/
structure ListParams where
  type : Option String
  format : Option String
  page : Option Int
  limit : Option Int
  author : Option String
  deriving DecidableEq, Repr

/-- Effective page of a list request (`page = 1` default). -/
def ListParams.pageVal (p : ListParams) : Int := p.page.getD 1

/-- Effective limit of a list request (`limit = 50` default). -/
def ListParams.limitVal (p : ListParams) : Int := p.limit.getD 50

/-- `const offset = (page - 1) * limit` (server.js line 79). -/
def listOffset (p : ListParams) : Int := (p.pageVal - 1) * p.limitVal

/-- WHERE clause of the list query as a row predicate: optional filters are
ANDed, a missing filter contributes no clause (server.js lines 90–112). -/
def listWhere (p : ListParams) (r : Rec) : Bool :=
  (match p.type with
   | none => true
   | some t => typeMatches t r) &&
  (match p.format with
   | none => true
   | some f => r.fileFormat == some f) &&
  (match p.author with
   | none => true
   | some a => ilikeSub a r.authorName)

/-- Positional arguments of the WHERE clause, in push order
(server.js lines 94–110). -/
def listWhereArgs (p : ListParams) : List PgVal :=
  (match p.type with
   | none => []
   | some t => [PgVal.str t]) ++
  (match p.format with
   | none => []
   | some f => [PgVal.str f]) ++
  (match p.author with
   | none => []
   | some a => [PgVal.str ("%" ++ a ++ "%")])

/-- Response the list handler computes on a cache miss from the current store
contents (server.js lines 114–145): `total` from the COUNT query sharing the
WHERE clause, rows ordered by `created_date DESC` with `LIMIT`/`OFFSET`,
`pages = Math.ceil(total / limit)`. -/
def listResponseOf (rows : List Rec) (p : ListParams) : ListResponse :=
  let filtered := rows.filter (listWhere p)
  let total := filtered.length
  { content := ((sortByDateDesc filtered).drop (listOffset p).toNat).take p.limitVal.toNat
  , pagination :=
    { page := p.pageVal
    , limit := p.limitVal
    , total := total
    , pages := ⌈(total : ℚ) / (p.limitVal : ℚ)⌉ }
  , filters := ⟨p.type, p.format, p.author⟩ }

/-- The list handler.  `raw` is `req.query` as the ordered association list the
cache key serializes; `p` is the typed view of the same query.  Any rejected
awaited call falls to the catch block (`internalError`); a negative
LIMIT/OFFSET is rejected by Postgres, so the data query rejects. -/
def listHandler (env : Env) (raw : List (String × String)) (p : ListParams) :
    Outcome × List Effect :=
  let key := listCacheKey raw
  match env.cacheGetResult with
  | .error _ => (.internalError, [.cacheGet key])
  | .ok (some b) => (.ok b, [.cacheGet key])
  | .ok none =>
    match env.store with
    | .error _ => (.internalError, [.cacheGet key, .storeQuery (listWhereArgs p)])
    | .ok rows =>
      let dataArgs := listWhereArgs p ++ [PgVal.int p.limitVal, PgVal.int (listOffset p)]
      if p.limitVal < 0 ∨ listOffset p < 0 then
        (.internalError, [.cacheGet key, .storeQuery (listWhereArgs p), .storeQuery dataArgs])
      else
        let resp := listResponseOf rows p
        match env.cacheSetResult with
        | .error _ =>
          (.internalError,
           [.cacheGet key, .storeQuery (listWhereArgs p), .storeQuery dataArgs,
            .cacheSet key 300 (.list resp)])
        | .ok _ =>
          (.ok (.list resp),
           [.cacheGet key, .storeQuery (listWhereArgs p), .storeQuery dataArgs,
            .cacheSet key 300 (.list resp)])

/-! ### GET /api/content/:id (server.js lines 158–185) -/

/-- The get-by-id handler: cache lookup on `content:${id}`, then
`SELECT * FROM content WHERE id = $1`; an empty row set is the 404, a found
row is cached for 600 seconds and returned. -/
def byIdHandler (env : Env) (id : String) : Outcome × List Effect :=
  let key := getByIdCacheKey id
  match env.cacheGetResult with
  | .error _ => (.internalError, [.cacheGet key])
  | .ok (some b) => (.ok b, [.cacheGet key])
  | .ok none =>
    match env.store with
    | .error _ => (.internalError, [.cacheGet key, .storeQuery [.str id]])
    | .ok rows =>
      match rows.filter (fun r => r.id == id) with
      | [] => (.notFound "Content not found", [.cacheGet key, .storeQuery [.str id]])
      | r :: _ =>
        match env.cacheSetResult with
        | .error _ =>
          (.internalError,
           [.cacheGet key, .storeQuery [.str id], .cacheSet key 600 (.record r)])
        | .ok _ =>
          (.ok (.record r),
           [.cacheGet key, .storeQuery [.str id], .cacheSet key 600 (.record r)])

/-! ### GET /api/search (server.js lines 188–244) -/

/-- Typed view of the query parameters the search handler destructures. -/
structure SearchParams where
  q : Option String
  type : Option String
  page : Option Int
  limit : Option Int
  deriving DecidableEq, Repr

/-- Effective page of a search request (`page = 1` default). -/
def SearchParams.pageVal (p : SearchParams) : Int := p.page.getD 1

/-- Effective limit of a search request (`limit = 20` default). -/
def SearchParams.limitVal (p : SearchParams) : Int := p.limit.getD 20

/-- `const offset = (page - 1) * limit` (server.js line 196). -/
def searchOffset (p : SearchParams) : Int := (p.pageVal - 1) * p.limitVal

/-- WHERE clause of the search query: `q` ORed over title, content_text,
author_name and `ai_topics::text`, ANDed with the optional type filter
(server.js lines 219–224). -/
def searchWhere (q : String) (type? : Option String) (r : Rec) : Bool :=
  (ilikeSub q r.title || ilikeSub q r.contentText || ilikeSub q r.authorName ||
    ilikeSub q r.aiTopics) &&
  (match type? with
   | none => true
   | some t => typeMatches t r)

/-- Positional arguments of the search query, in push order
(server.js lines 206–211). -/
def searchArgs (p : SearchParams) (q : String) : List PgVal :=
  [PgVal.str ("%" ++ q ++ "%"), PgVal.int p.limitVal, PgVal.int (searchOffset p)] ++
  (match p.type with
   | none => []
   | some t => [PgVal.str t])

/-- Response the search handler computes on a cache miss
(server.js lines 229–234). -/
def searchResponseOf (rows : List Rec) (p : SearchParams) (q : String) : SearchResponse :=
  let results :=
    ((sortByDateDesc (rows.filter (searchWhere q p.type))).drop
      (searchOffset p).toNat).take p.limitVal.toNat
  { query := q
  , type := p.type.getD "all"
  , results := results
  , count := results.length }

/-- The search handler: the missing-`q` 400 precedes the cache lookup and the
store query; the hit path returns the cached body; the miss path queries the
store and caches the response for 300 seconds. -/
def searchHandler (env : Env) (p : SearchParams) : Outcome × List Effect :=
  match p.q with
  | none => (.badRequest "Query parameter \"q\" is required", [])
  | some q =>
    if q = "" then (.badRequest "Query parameter \"q\" is required", [])
    else
      let key := searchCacheKey q p.type p.pageVal p.limitVal
      match env.cacheGetResult with
      | .error _ => (.internalError, [.cacheGet key])
      | .ok (some b) => (.ok b, [.cacheGet key])
      | .ok none =>
        match env.store with
        | .error _ => (.internalError, [.cacheGet key, .storeQuery (searchArgs p q)])
        | .ok rows =>
          if p.limitVal < 0 ∨ searchOffset p < 0 then
            (.internalError, [.cacheGet key, .storeQuery (searchArgs p q)])
          else
            let resp := searchResponseOf rows p q
            match env.cacheSetResult with
            | .error _ =>
              (.internalError,
               [.cacheGet key, .storeQuery (searchArgs p q), .cacheSet key 300 (.search resp)])
            | .ok _ =>
              (.ok (.search resp),
               [.cacheGet key, .storeQuery (searchArgs p q), .cacheSet key 300 (.search resp)])

/-! ### GET /api/stats (server.js lines 247–296) -/

/-- `SELECT key, COUNT(*) ... GROUP BY key` over a list of (nullable) key
values: one output row per distinct value, with its multiplicity.  SQL groups
the NULLs together like any other value. -/
def groupCounts (keys : List (Option String)) : List (Option String × Nat) :=
  keys.dedup.map fun v => (v, keys.count v)

/-- JavaScript object key a row value is coerced to when used as a property
name: `null` becomes the string "null". -/
def jsObjKey : Option String → String
  | none => "null"
  | some s => s

/-- `obj[k] = v` on an object modelled as an insertion-ordered association
list: overwrite an existing property, else append. -/
def objSet (o : List (String × Nat)) (k : String) (v : Nat) : List (String × Nat) :=
  if (o.find? fun kv => kv.1 == k).isSome then
    o.map fun kv => if kv.1 == k then (kv.1, v) else kv
  else o ++ [(k, v)]

/-- The `forEach` loops building `sourceTypeCounts` / `mediaTypeCounts`
(server.js lines 267–275): fold the group rows into a fresh object. -/
def objOfGroups (gs : List (Option String × Nat)) : List (String × Nat) :=
  gs.foldl (fun o g => objSet o (jsObjKey g.1) g.2) []

/-- `Math.round(parseFloat(AVG(word_count)) || 0)`: 0 when no non-null
word_count exists (AVG is NULL and `parseFloat(null)` is NaN), else the
half-up rounding of the exact average. -/
def avgWordCount (ws : List Nat) : Int :=
  if ws.length = 0 then 0 else ⌊(ws.sum : ℚ) / (ws.length : ℚ) + 1 / 2⌋

/-- Stats the handler composes from its seven queries over one store snapshot
(server.js lines 257–286). -/
def statsOf (rows : List Rec) : StatsResponse :=
  { total_content := rows.length
  , content_by_source_type := objOfGroups (groupCounts (rows.map (·.sourceType)))
  , content_by_media_type :=
      objOfGroups (groupCounts ((rows.filter (fun r => r.mediaType.isSome)).map (·.mediaType)))
  , processed_content := (rows.filter (fun r => r.aiProcessingStatus == some "completed")).length
  , pending_content := (rows.filter (fun r => r.aiProcessingStatus == some "pending")).length
  , average_word_count := avgWordCount (rows.filterMap (·.wordCount))
  , latest_content := ((sortByDateDesc rows).head?).map (·.createdDate) }

/-- Argument vectors of the seven `Promise.all` stats queries, in order. -/
def statsQueryArgs : List (List PgVal) :=
  [[], [], [], [PgVal.str "completed"], [PgVal.str "pending"], [], []]

/-- The stats handler: cache lookup on `stats:warehouse`; on a miss, the seven
store queries run (a failure of any one rejects the whole `Promise.all`), the
stats body is cached for 120 seconds and returned. -/
def statsHandler (env : Env) : Outcome × List Effect :=
  let key := statsCacheKey
  match env.cacheGetResult with
  | .error _ => (.internalError, [.cacheGet key])
  | .ok (some b) => (.ok b, [.cacheGet key])
  | .ok none =>
    match env.store with
    | .error _ => (.internalError, .cacheGet key :: statsQueryArgs.map .storeQuery)
    | .ok rows =>
      let resp := statsOf rows
      match env.cacheSetResult with
      | .error _ =>
        (.internalError,
         (.cacheGet key :: statsQueryArgs.map .storeQuery) ++ [.cacheSet key 120 (.stats resp)])
      | .ok _ =>
        (.ok (.stats resp),
         (.cacheGet key :: statsQueryArgs.map .storeQuery) ++ [.cacheSet key 120 (.stats resp)])

/-! ### GET /api/content/recent (server.js lines 299–331) — no caching -/

/-- Typed view of the query parameters the recent handler destructures. -/
structure RecentParams where
  limit : Option Int
  type : Option String
  deriving DecidableEq, Repr

/-- Effective limit of a recent request (`limit = 10` default). -/
def RecentParams.limitVal (p : RecentParams) : Int := p.limit.getD 10

/-- Positional arguments of the recent query, in push order
(server.js lines 304–309). -/
def recentArgs (p : RecentParams) : List PgVal :=
  [PgVal.int p.limitVal] ++
  (match p.type with
   | none => []
   | some t => [PgVal.str t])

/-- The recent handler: no cache read, no cache write; optional type filter,
`ORDER BY created_date DESC LIMIT $1`. -/
def recentHandler (env : Env) (p : RecentParams) : Outcome × List Effect :=
  match env.store with
  | .error _ => (.internalError, [.storeQuery (recentArgs p)])
  | .ok rows =>
    if p.limitVal < 0 then (.internalError, [.storeQuery (recentArgs p)])
    else
      let rs :=
        (sortByDateDesc (rows.filter fun r =>
          match p.type with
          | none => true
          | some t => typeMatches t r)).take p.limitVal.toNat
      (.ok (.recent { recent_content := rs, count := rs.length, type := p.type.getD "all" }),
       [.storeQuery (recentArgs p)])

/-! ### GET /api/content/by-author (server.js lines 334–360) — no caching -/

/-- The by-author handler: missing (or empty, which is falsy) `author` is the
400; otherwise one store query filtered by `author_name ILIKE '%author%'`,
unpaginated, and no cache operation. -/
def byAuthorHandler (env : Env) (author : Option String) : Outcome × List Effect :=
  match author with
  | none => (.badRequest "Author parameter is required", [])
  | some a =>
    if a = "" then (.badRequest "Author parameter is required", [])
    else
      match env.store with
      | .error _ => (.internalError, [.storeQuery [.str ("%" ++ a ++ "%")]])
      | .ok rows =>
        let rs := sortByDateDesc (rows.filter fun r => ilikeSub a r.authorName)
        (.ok (.byAuthor { author := a, content := rs, count := rs.length }),
         [.storeQuery [.str ("%" ++ a ++ "%")]])

/-! ### Cache-state wrapper, for claims that relate consecutive requests -/

/-- Lookup in a cache modelled as an association list keyed by cache key. -/
def cacheFind (cache : List (String × Body)) (key : String) : Option Body :=
  (cache.find? fun kv => kv.1 == key).map fun kv => kv.2

/-- `SETEX`-style insert-or-overwrite into the cache map. -/
def cacheStore (cache : List (String × Body)) (key : String) (b : Body) :
    List (String × Body) :=
  if (cache.find? fun kv => kv.1 == key).isSome then
    cache.map fun kv => if kv.1 == key then (kv.1, b) else kv
  else cache ++ [(key, b)]

/-- Cache state after a trace: every cache write applied in order. -/
def cacheAfter (cache : List (String × Body)) (t : List Effect) : List (String × Body) :=
  t.foldl
    (fun c e =>
      match e with
      | .cacheSet k _ b => cacheStore c k b
      | _ => c)
    cache

/-- Run the get-by-id handler against an explicit cache state, a healthy redis
and a healthy store. -/
def runById (cache : List (String × Body)) (rows : List Rec) (id : String) :
    Outcome × List Effect :=
  byIdHandler
    { cacheGetResult := .ok (cacheFind cache (getByIdCacheKey id))
    , store := .ok rows
    , cacheSetResult := .ok () }
    id

/-! ### Sample data used by closed witnesses and counterexamples -/

/-- Sample row 1. -/
def rec1 : Rec :=
  { id := "1", title := some "Intro to Lean", createdDate := 300
  , sourceType := some "video", mediaType := some "mp4", fileFormat := some "mp4"
  , authorName := some "Jane Doe", contentText := none, aiTopics := some "lean"
  , aiProcessingStatus := some "completed", wordCount := some 120 }

/-- Sample row 2. -/
def rec2 : Rec :=
  { id := "2", title := some "Parsing in practice", createdDate := 200
  , sourceType := some "article", mediaType := none, fileFormat := some "html"
  , authorName := some "Janet Smith", contentText := some "long form text"
  , aiTopics := none, aiProcessingStatus := some "pending", wordCount := some 80 }

/-- Sample row 3. -/
def rec3 : Rec :=
  { id := "3", title := some "Databases", createdDate := 100
  , sourceType := some "video", mediaType := some "webm", fileFormat := some "webm"
  , authorName := none, contentText := none, aiTopics := none
  , aiProcessingStatus := none, wordCount := none }

/-- Healthy environment over a given store snapshot. -/
def okEnv (rows : List Rec) : Env :=
  { cacheGetResult := .ok none, store := .ok rows, cacheSetResult := .ok () }

/-- Sample store snapshot. -/
def demoStore : List Rec := [rec1, rec2, rec3]

/-- Sample list-request parameters: `type=video&page=1&limit=1`. -/
def demoListParams : ListParams :=
  { type := some "video", format := none, page := some 1, limit := some 1, author := none }

/-- Sample search-request parameters: `q=lean&page=1&limit=2`. -/
def demoSearchParams : SearchParams :=
  { q := some "lean", type := none, page := some 1, limit := some 2 }

/-- Character that `JSON.stringify` serializes verbatim: printable, and
neither the quote nor the backslash. -/
abbrev goodChar (c : Char) : Prop := c ≠ '"' ∧ c ≠ '\\' ∧ 32 ≤ c.toNat

/-- String all of whose characters serialize verbatim. -/
abbrev goodStr (s : String) : Prop := ∀ c ∈ s.data, goodChar c

/-- Query whose parameter names and values all serialize verbatim. -/
abbrev goodQuery (q : List (String × String)) : Prop := ∀ kv ∈ q, goodStr kv.1 ∧ goodStr kv.2

/-! ## Lemmas -/

theorem escChar_good (c : Char) (h : goodChar c) : escChar c = [c] := by
  unfold escChar
  rw [if_neg h.1, if_neg h.2.1]

theorem string_data_inj {s t : String} (h : s.data = t.data) : s = t := by
  cases s
  cases t
  exact congrArg String.mk h

theorem jsonEscape_good (s : String) (h : goodStr s) : jsonEscape s = s := by
  have aux : ∀ l : List Char, (∀ c ∈ l, goodChar c) → l.flatMap escChar = l := by
    intro l hl
    induction l with
    | nil => rfl
    | cons c t ih =>
      rw [List.flatMap_cons, escChar_good c (hl c (by simp)),
        ih fun z hz => hl z (by simp [hz])]
      rfl
  unfold jsonEscape
  rw [aux s.data h]

theorem quote_frame : ∀ (a c b d : List Char), (∀ x ∈ a, x ≠ '"') → (∀ x ∈ c, x ≠ '"') →
    a ++ '"' :: b = c ++ '"' :: d → a = c ∧ b = d := by
  intro a
  induction a with
  | nil =>
    intro c b d _ hc h
    cases c with
    | nil => simpa using h
    | cons y ys =>
      simp only [List.nil_append, List.cons_append, List.cons.injEq] at h
      exact absurd h.1.symm (hc y (by simp))
  | cons x xs ih =>
    intro c b d ha hc h
    cases c with
    | nil =>
      simp only [List.nil_append, List.cons_append, List.cons.injEq] at h
      exact absurd h.1 (ha x (by simp))
    | cons y ys =>
      simp only [List.cons_append, List.cons.injEq] at h
      obtain ⟨rfl, h2⟩ := h
      obtain ⟨h3, h4⟩ := ih ys b d (fun z hz => ha z (by simp [hz]))
        (fun z hz => hc z (by simp [hz])) h2
      exact ⟨by rw [h3], h4⟩

theorem renderPair_data (k v : String) (hk : goodStr k) (hv : goodStr v) :
    (renderPair (k, v)).data =
      '"' :: (k.data ++ '"' :: ':' :: '"' :: (v.data ++ ['"'])) := by
  have d1 : ("\"" : String).data = ['"'] := rfl
  have d2 : (":" : String).data = [':'] := rfl
  simp [renderPair, jsonQuote, jsonEscape_good _ hk, jsonEscape_good _ hv,
    String.data_append, d1, d2]

theorem pair_chunk_inj (k1 v1 k2 v2 : String) (t1 t2 : List Char)
    (hk1 : goodStr k1) (hv1 : goodStr v1) (hk2 : goodStr k2) (hv2 : goodStr v2)
    (h : (renderPair (k1, v1)).data ++ t1 = (renderPair (k2, v2)).data ++ t2) :
    k1 = k2 ∧ v1 = v2 ∧ t1 = t2 := by
  rw [renderPair_data _ _ hk1 hv1, renderPair_data _ _ hk2 hv2] at h
  simp only [List.cons_append, List.append_assoc, List.cons.injEq, true_and] at h
  obtain ⟨hkd, h2⟩ :=
    quote_frame _ _ _ _ (fun z hz => (hk1 z hz).1) (fun z hz => (hk2 z hz).1) h
  simp only [List.cons.injEq, true_and] at h2
  obtain ⟨hvd, h3⟩ :=
    quote_frame _ _ _ _ (fun z hz => (hv1 z hz).1) (fun z hz => (hv2 z hz).1) h2
  exact ⟨string_data_inj hkd, string_data_inj hvd, h3⟩

theorem renderRest_inj : ∀ (q1 q2 : List (String × String)), goodQuery q1 → goodQuery q2 →
    renderRest q1 = renderRest q2 → q1 = q2 := by
  intro q1
  induction q1 with
  | nil =>
    intro q2 _ _ h
    cases q2 with
    | nil => rfl
    | cons kv r =>
      have := congrArg String.data h
      simp [renderRest, String.data_append] at this
  | cons kv1 r1 ih =>
    intro q2 h1 h2 h
    cases q2 with
    | nil =>
      have := congrArg String.data h
      simp [renderRest, String.data_append] at this
    | cons kv2 r2 =>
      obtain ⟨k1, v1⟩ := kv1
      obtain ⟨k2, v2⟩ := kv2
      have hd := congrArg String.data h
      simp only [renderRest, String.data_append, List.cons_append, List.append_assoc,
        List.cons.injEq, true_and] at hd
      have hg1 := h1 (k1, v1) (by simp)
      have hg2 := h2 (k2, v2) (by simp)
      obtain ⟨hk, hv, ht⟩ := pair_chunk_inj k1 v1 k2 v2 _ _ hg1.1 hg1.2 hg2.1 hg2.2 hd
      have hr : r1 = r2 :=
        ih r2 (fun z hz => h1 z (by simp [hz])) (fun z hz => h2 z (by simp [hz]))
          (string_data_inj ht)
      rw [hk, hv, hr]

theorem renderPairs_inj (q1 q2 : List (String × String)) (h1 : goodQuery q1)
    (h2 : goodQuery q2) (h : renderPairs q1 = renderPairs q2) : q1 = q2 := by
  cases q1 with
  | nil =>
    cases q2 with
    | nil => rfl
    | cons kv r =>
      obtain ⟨k, v⟩ := kv
      have hg := h2 (k, v) (by simp)
      have := congrArg String.data h
      simp [renderPairs, String.data_append, renderPair_data _ _ hg.1 hg.2] at this
  | cons kv1 r1 =>
    cases q2 with
    | nil =>
      obtain ⟨k, v⟩ := kv1
      have hg := h1 (k, v) (by simp)
      have := congrArg String.data h
      simp [renderPairs, String.data_append, renderPair_data _ _ hg.1 hg.2] at this
    | cons kv2 r2 =>
      obtain ⟨k1, v1⟩ := kv1
      obtain ⟨k2, v2⟩ := kv2
      have hd := congrArg String.data h
      simp only [renderPairs, String.data_append] at hd
      have hg1 := h1 (k1, v1) (by simp)
      have hg2 := h2 (k2, v2) (by simp)
      obtain ⟨hk, hv, ht⟩ := pair_chunk_inj k1 v1 k2 v2 _ _ hg1.1 hg1.2 hg2.1 hg2.2 hd
      have hr : r1 = r2 :=
        renderRest_inj r1 r2 (fun z hz => h1 z (by simp [hz]))
          (fun z hz => h2 z (by simp [hz])) (string_data_inj ht)
      rw [hk, hv, hr]

theorem jsonStringifyObj_inj (q1 q2 : List (String × String)) (h1 : goodQuery q1)
    (h2 : goodQuery q2) (h : jsonStringifyObj q1 = jsonStringifyObj q2) : q1 = q2 := by
  have hd := congrArg String.data h
  have db : ("\x7b" : String).data = ['\x7b'] := rfl
  have de : ("\x7d" : String).data = ['\x7d'] := rfl
  simp only [jsonStringifyObj, String.data_append, db, de, List.cons_append,
    List.nil_append, List.cons.injEq, true_and] at hd
  exact renderPairs_inj q1 q2 h1 h2 (string_data_inj (List.append_cancel_right hd))

theorem string_append_left_cancel {s t u : String} (h : s ++ t = s ++ u) : t = u := by
  have := congrArg String.data h
  simp only [String.data_append] at this
  exact string_data_inj (List.append_cancel_left this)

/-! ## Claim theorems -/

/-- C1: the `/api/content/:id` route is registered before `/api/content/recent`
and `/api/content/by-author` and its `:id` segment matches any single path
segment, so first-match dispatch sends both paths to the get-by-id handler with
`id` bound to "recent" / "by-author", and never to their own handlers. -/
theorem dispatch_shadows_recent_and_by_author :
    dispatch ["api", "content", "recent"] = some ("getById", [("id", "recent")]) ∧
    dispatch ["api", "content", "by-author"] = some ("getById", [("id", "by-author")]) ∧
    (∀ bs, dispatch ["api", "content", "recent"] ≠ some ("recent", bs)) ∧
    (∀ bs, dispatch ["api", "content", "by-author"] ≠ some ("byAuthor", bs)) := by
  have h1 : dispatch ["api", "content", "recent"] = some ("getById", [("id", "recent")]) := by
    decide
  have h2 : dispatch ["api", "content", "by-author"] =
      some ("getById", [("id", "by-author")]) := by decide
  refine ⟨h1, h2, ?_, ?_⟩
  · intro bs h
    rw [h1] at h
    simp at h
  · intro bs h
    rw [h2] at h
    simp at h

/-- Closed instance of the C1 theorem: the recent route with empty bindings is
not what dispatch selects for its own path. -/
theorem dispatch_shadows_recent_and_by_author_witness :
    dispatch ["api", "content", "recent"] ≠ some ("recent", []) :=
  dispatch_shadows_recent_and_by_author.2.2.1 []

/-- C2 (counterexample): key derivation is not order-independent — the list key
serializes `req.query` in insertion order — and logically-different requests
can collide: the list request with an empty query and the get-by-id request
with id "\x7b\x7d" share the key "content:\x7b\x7d", and two different
(q, type) search pairs share a key when the values contain ':'. -/
theorem cacheKey_claim_counterexample :
    listCacheKey [("type", "video"), ("author", "kim")] ≠
      listCacheKey [("author", "kim"), ("type", "video")] ∧
    listCacheKey [] = getByIdCacheKey "\x7b\x7d" ∧
    searchCacheKey "a:b" (some "c") 1 20 = searchCacheKey "a" (some "b:c") 1 20 := by
  refine ⟨by decide, rfl, rfl⟩

/-- C2 (amended): each cache key is a pure, deterministic function of the
operation's raw inputs, and the list and get-by-id keys are injective in those
raw inputs — for the list operation, in the ordered query-parameter list (over
verbatim-serialized characters); but the list key is not invariant under
parameter reordering, and keys of different operations can coincide. -/
theorem cacheKey_deterministic_injective :
    (∀ q1 q2 : List (String × String), goodQuery q1 → goodQuery q2 →
      (listCacheKey q1 = listCacheKey q2 ↔ q1 = q2)) ∧
    (∀ a b : String, getByIdCacheKey a = getByIdCacheKey b ↔ a = b) := by
  constructor
  · intro q1 q2 h1 h2
    constructor
    · intro h
      exact jsonStringifyObj_inj q1 q2 h1 h2 (string_append_left_cancel h)
    · intro h
      rw [h]
  · intro a b
    exact ⟨fun h => string_append_left_cancel h, fun h => by rw [h]⟩

/-- Closed instance of the amended C2 theorem: two list requests differing in
one parameter value have distinct keys. -/
theorem cacheKey_deterministic_injective_witness :
    listCacheKey [("type", "video")] ≠ listCacheKey [("type", "text")] := by
  intro h
  have h2 := (cacheKey_deterministic_injective.1 [("type", "video")] [("type", "text")]
    (by decide) (by decide)).mp h
  exact absurd h2 (by decide)

/-- C3: for a list request with effective page and limit at least 1, the
computed response has `pages = ⌈total / limit⌉` where `total` counts the rows
matching the WHERE clause, at most `limit` content rows, and the query offset
is `(page - 1) * limit`; on a cache miss over a healthy environment the
handler returns exactly this response. -/
theorem list_pagination_correct (rows : List Rec) (p : ListParams)
    (hp : 1 ≤ p.pageVal) (hl : 1 ≤ p.limitVal) :
    (listResponseOf rows p).pagination.pages =
      ⌈(((rows.filter (listWhere p)).length : ℚ) / (p.limitVal : ℚ))⌉ ∧
    (listResponseOf rows p).content.length ≤ p.limitVal.toNat ∧
    listOffset p = (p.pageVal - 1) * p.limitVal ∧
    ∀ env raw, env.cacheGetResult = .ok none → env.store = .ok rows →
      env.cacheSetResult = .ok () →
      (listHandler env raw p).1 = .ok (.list (listResponseOf rows p)) := by
  refine ⟨rfl, ?_, rfl, ?_⟩
  · show (((sortByDateDesc (rows.filter (listWhere p))).drop
      (listOffset p).toNat).take p.limitVal.toNat).length ≤ p.limitVal.toNat
    rw [List.length_take]
    exact min_le_left _ _
  · intro env raw hg hs hset
    have hoff : 0 ≤ listOffset p := by
      unfold listOffset
      exact mul_nonneg (by omega) (by omega)
    have hneg : ¬(p.limitVal < 0 ∨ listOffset p < 0) := by
      push_neg
      exact ⟨by omega, hoff⟩
    simp [listHandler, hg, hs, hset, hneg]

/-- Closed instance of the C3 theorem on the sample store with
`page=1, limit=1`. -/
theorem list_pagination_correct_witness :
    (listResponseOf demoStore demoListParams).pagination.pages =
      ⌈(((demoStore.filter (listWhere demoListParams)).length : ℚ) /
        (demoListParams.limitVal : ℚ))⌉ ∧
    (listResponseOf demoStore demoListParams).content.length ≤
      demoListParams.limitVal.toNat ∧
    listOffset demoListParams =
      (demoListParams.pageVal - 1) * demoListParams.limitVal ∧
    (listHandler (okEnv demoStore) [] demoListParams).1 =
      .ok (.list (listResponseOf demoStore demoListParams)) :=
  have h := list_pagination_correct demoStore demoListParams (by decide) (by decide)
  ⟨h.1, h.2.1, h.2.2.1, h.2.2.2 (okEnv demoStore) [] rfl rfl rfl⟩

/-- C5: on the full miss path each cached operation performs exactly one cache
write, with TTL 300 (list), 600 (get-by-id), 300 (search), 120 (stats), and
the recent and by-author handlers perform no cache operation at all. -/
theorem ttl_per_operation :
    (∀ env raw p rows, env.cacheGetResult = .ok none → env.store = .ok rows →
      ¬(p.limitVal < 0 ∨ listOffset p < 0) →
      cacheSetTTLs (listHandler env raw p).2 = [300]) ∧
    (∀ env id rows r rest, env.cacheGetResult = .ok none → env.store = .ok rows →
      rows.filter (fun x => x.id == id) = r :: rest →
      cacheSetTTLs (byIdHandler env id).2 = [600]) ∧
    (∀ env p q rows, p.q = some q → q ≠ "" → env.cacheGetResult = .ok none →
      env.store = .ok rows → ¬(p.limitVal < 0 ∨ searchOffset p < 0) →
      cacheSetTTLs (searchHandler env p).2 = [300]) ∧
    (∀ env rows, env.cacheGetResult = .ok none → env.store = .ok rows →
      cacheSetTTLs (statsHandler env).2 = [120]) ∧
    (∀ env p, cacheOps (recentHandler env p).2 = []) ∧
    (∀ env a, cacheOps (byAuthorHandler env a).2 = []) := by
  refine ⟨?_, ?_, ?_, ?_, ?_, ?_⟩
  · intro env raw p rows hg hs hneg
    cases hset : env.cacheSetResult <;>
      simp [listHandler, hg, hs, hneg, hset, cacheSetTTLs, cacheWrites]
  · intro env id rows r rest hg hs hf
    cases hset : env.cacheSetResult <;>
      simp [byIdHandler, hg, hs, hf, hset, cacheSetTTLs, cacheWrites]
  · intro env p q rows hq hne hg hs hneg
    cases hset : env.cacheSetResult <;>
      simp [searchHandler, hq, hne, hg, hs, hneg, hset, cacheSetTTLs, cacheWrites]
  · intro env rows hg hs
    cases hset : env.cacheSetResult <;>
      simp [statsHandler, hg, hs, hset, cacheSetTTLs, cacheWrites, statsQueryArgs]
  · intro env p
    cases hs : env.store with
    | error e => simp [recentHandler, hs, cacheOps]
    | ok rows => by_cases h : p.limitVal < 0 <;> simp [recentHandler, hs, h, cacheOps]
  · intro env a
    cases a with
    | none => simp [byAuthorHandler, cacheOps]
    | some s =>
      by_cases hsx : s = ""
      · simp [byAuthorHandler, hsx, cacheOps]
      · cases hs : env.store with
        | error e => simp [byAuthorHandler, hsx, hs, cacheOps]
        | ok rows => simp [byAuthorHandler, hsx, hs, cacheOps]

/-- Closed instance of the C5 theorem: a stats miss writes with TTL 120. -/
theorem ttl_per_operation_witness :
    cacheSetTTLs (statsHandler (okEnv demoStore)).2 = [120] :=
  ttl_per_operation.2.2.2.1 (okEnv demoStore) demoStore rfl rfl

/-- C6: a search request whose `q` is missing or empty is answered with the
400 response before any effect — in particular before any store query — and
likewise a by-author request with `author` missing. -/
theorem missing_param_400 :
    (∀ env p, p.q = none ∨ p.q = some "" →
      (searchHandler env p).1 = .badRequest "Query parameter \"q\" is required" ∧
      (searchHandler env p).2 = []) ∧
    (∀ env, (byAuthorHandler env none).1 = .badRequest "Author parameter is required" ∧
      (byAuthorHandler env none).2 = []) := by
  constructor
  · intro env p hq
    rcases hq with h | h <;> simp [searchHandler, h]
  · intro env
    simp [byAuthorHandler]

/-- Closed instance of the C6 theorem: search without `q` is the 400. -/
theorem missing_param_400_witness :
    (searchHandler (okEnv demoStore) { q := none, type := none, page := none, limit := none }).1 =
      .badRequest "Query parameter \"q\" is required" :=
  (missing_param_400.1 (okEnv demoStore)
    { q := none, type := none, page := none, limit := none } (Or.inl rfl)).1

/-- C7 (counterexample): a recent request with `limit=0` sends 0 to the store
as the LIMIT argument, a list request with `limit=0` likewise sends 0 for
LIMIT, and a search request with `limit=0` sends 0 as its LIMIT argument —
a zero limit reaches the store unvalidated on all three operations. -/
theorem limit_claim_counterexample :
    storeQueries (recentHandler (okEnv []) { limit := some 0, type := none }).2 =
      [[PgVal.int 0]] ∧
    storeQueries (listHandler (okEnv []) []
      { type := none, format := none, page := some 1, limit := some 0, author := none }).2 =
      [[], [PgVal.int 0, PgVal.int 0]] ∧
    storeQueries (searchHandler (okEnv [])
      { q := some "x", type := none, page := some 1, limit := some 0 }).2 =
      [[PgVal.str "%x%", PgVal.int 0, PgVal.int 0]] := ⟨rfl, rfl, rfl⟩

/-- C7 (amended): `page` and `limit` are defaulted (list 1/50, search 1/20,
recent 10) but never validated or coerced to positive integers: on the list,
search and recent operations a zero or negative supplied limit is passed to
the store unchanged as the LIMIT argument. -/
theorem limit_passed_unvalidated (l : Int) (hl : l ≤ 0) :
    (∀ env, storeQueries (recentHandler env { limit := some l, type := none }).2 =
      [[PgVal.int l]]) ∧
    (∀ env raw rows, env.cacheGetResult = .ok none → env.store = .ok rows →
      storeQueries (listHandler env raw
        { type := none, format := none, page := some 1, limit := some l, author := none }).2 =
      [[], [PgVal.int l, PgVal.int 0]]) ∧
    (∀ env rows qs, qs ≠ "" → env.cacheGetResult = .ok none → env.store = .ok rows →
      storeQueries (searchHandler env
        { q := some qs, type := none, page := some 1, limit := some l }).2 =
      [[PgVal.str ("%" ++ qs ++ "%"), PgVal.int l, PgVal.int 0]]) := by
  refine ⟨?_, ?_, ?_⟩
  · intro env
    cases hs : env.store with
    | error e => simp [recentHandler, hs, storeQueries, recentArgs, RecentParams.limitVal]
    | ok rows =>
      by_cases h : l < 0 <;>
        simp [recentHandler, hs, h, storeQueries, recentArgs, RecentParams.limitVal]
  · intro env raw rows hg hs
    have hoff : listOffset
        { type := none, format := none, page := some 1, limit := some l, author := none } = 0 := by
      simp [listOffset, ListParams.pageVal, ListParams.limitVal]
    by_cases h : l < 0
    · simp [listHandler, hg, hs, hoff, h, storeQueries, listWhereArgs, ListParams.limitVal]
    · cases hset : env.cacheSetResult <;>
        simp [listHandler, hg, hs, hoff, h, hset, storeQueries, listWhereArgs,
          ListParams.limitVal]
  · intro env rows qs hq hg hs
    have hoff : searchOffset
        { q := some qs, type := none, page := some 1, limit := some l } = 0 := by
      simp [searchOffset, SearchParams.pageVal, SearchParams.limitVal]
    by_cases h : l < 0
    · simp [searchHandler, hq, hg, hs, hoff, h, storeQueries, searchArgs,
        SearchParams.limitVal]
    · cases hset : env.cacheSetResult <;>
        simp [searchHandler, hq, hg, hs, hoff, h, hset, storeQueries, searchArgs,
          SearchParams.limitVal]

/-- Closed instance of the amended C7 theorem at `limit = 0`. -/
theorem limit_passed_unvalidated_witness :
    storeQueries (recentHandler (okEnv demoStore) { limit := some 0, type := none }).2 =
      [[PgVal.int 0]] :=
  (limit_passed_unvalidated 0 (by decide)).1 (okEnv demoStore)

/-- C8: when the cache read returns a present (unexpired) value, every cached
handler returns that deserialized value and performs no store query. -/
theorem cache_hit_no_store (env : Env) (b : Body)
    (h : env.cacheGetResult = .ok (some b)) :
    (∀ raw p, (listHandler env raw p).1 = .ok b ∧
      storeQueries (listHandler env raw p).2 = []) ∧
    (∀ id, (byIdHandler env id).1 = .ok b ∧
      storeQueries (byIdHandler env id).2 = []) ∧
    (∀ p q, p.q = some q → q ≠ "" → (searchHandler env p).1 = .ok b ∧
      storeQueries (searchHandler env p).2 = []) ∧
    ((statsHandler env).1 = .ok b ∧ storeQueries (statsHandler env).2 = []) := by
  refine ⟨?_, ?_, ?_, ?_⟩
  · intro raw p
    simp [listHandler, h, storeQueries]
  · intro id
    simp [byIdHandler, h, storeQueries]
  · intro p q hq hne
    simp [searchHandler, hq, hne, h, storeQueries]
  · simp [statsHandler, h, storeQueries]

/-- Closed instance of the C8 theorem: a get-by-id hit returns the cached
record without touching the store. -/
theorem cache_hit_no_store_witness :
    (byIdHandler
      { cacheGetResult := .ok (some (.record rec1)), store := .ok [], cacheSetResult := .ok () }
      "9").1 = .ok (.record rec1) :=
  ((cache_hit_no_store
    { cacheGetResult := .ok (some (.record rec1)), store := .ok [], cacheSetResult := .ok () }
    (.record rec1) rfl).2.1 "9").1

theorem objSet_fresh (o : List (String × Nat)) (k : String) (v : Nat)
    (h : ∀ kv ∈ o, kv.1 ≠ k) : objSet o k v = o ++ [(k, v)] := by
  have hf : (o.find? fun kv => kv.1 == k) = none :=
    List.find?_eq_none.mpr fun kv hkv => by simp [h kv hkv]
  rw [objSet, hf]
  simp

theorem objOfGroups_sum :
    ∀ (gs : List (Option String × Nat)) (o : List (String × Nat)),
    (gs.map fun g => jsObjKey g.1).Nodup →
    (∀ g ∈ gs, ∀ kv ∈ o, kv.1 ≠ jsObjKey g.1) →
    ((gs.foldl (fun o g => objSet o (jsObjKey g.1) g.2) o).map fun kv => kv.2).sum =
      (o.map fun kv => kv.2).sum + (gs.map fun g => g.2).sum := by
  intro gs
  induction gs with
  | nil =>
    intro o _ _
    simp
  | cons g gs ih =>
    intro o hnd hfresh
    simp only [List.map_cons, List.nodup_cons] at hnd
    simp only [List.foldl_cons]
    rw [objSet_fresh o _ _ fun kv hkv => hfresh g (by simp) kv hkv]
    have hfresh' : ∀ g' ∈ gs, ∀ kv ∈ o ++ [(jsObjKey g.1, g.2)], kv.1 ≠ jsObjKey g'.1 := by
      intro g' hg' kv hkv
      rcases List.mem_append.mp hkv with h1 | h2
      · exact hfresh g' (by simp [hg']) kv h1
      · have hkv : kv = (jsObjKey g.1, g.2) := by simpa using h2
        rw [hkv]
        show jsObjKey g.1 ≠ jsObjKey g'.1
        intro hcontra
        apply hnd.1
        rw [hcontra]
        exact List.mem_map_of_mem (fun x => jsObjKey x.1) hg'
    rw [ih (o ++ [(jsObjKey g.1, g.2)]) hnd.2 hfresh']
    simp [List.map_append]
    omega

theorem count_inst_bridge (l : List (Option String)) (v : Option String) :
    l.count v = @List.count (Option String) instBEqOfDecidableEq v l := by
  have h1 : l.count v = l.countP (· == v) := rfl
  have h2 : @List.count (Option String) instBEqOfDecidableEq v l =
      l.countP (fun a => decide (a = v)) := rfl
  rw [h1, h2]
  apply List.countP_congr
  intro a _
  by_cases h : a = v <;> simp [h]

theorem sum_dedup_count (l : List (Option String)) :
    (l.dedup.map fun v => l.count v).sum = l.length := by
  rw [List.map_congr_left fun v _ => count_inst_bridge l v]
  exact List.sum_map_count_dedup_eq_length l

/-- C9: when every row has a non-null source_type, the `total_content` field of
the stats response equals the sum of the `content_by_source_type` values. -/
theorem stats_total_eq_source_type_sum (rows : List Rec)
    (h : ∀ r ∈ rows, r.sourceType.isSome) :
    ((statsOf rows).content_by_source_type.map fun kv => kv.2).sum =
      (statsOf rows).total_content := by
  show ((objOfGroups (groupCounts (rows.map (·.sourceType)))).map fun kv => kv.2).sum =
    rows.length
  have hkeys : (((groupCounts (rows.map (·.sourceType))).map fun g => jsObjKey g.1)).Nodup := by
    unfold groupCounts
    rw [List.map_map]
    have : ((fun g : Option String × Nat => jsObjKey g.1) ∘
        fun v => (v, (rows.map (·.sourceType)).count v)) = jsObjKey := rfl
    rw [this]
    refine List.Nodup.map_on ?_ (List.nodup_dedup _)
    intro x hx y hy hxy
    have hxs : x.isSome := by
      obtain ⟨r, hr, hrx⟩ := List.mem_map.mp (List.mem_dedup.mp hx)
      exact hrx ▸ h r hr
    have hys : y.isSome := by
      obtain ⟨r, hr, hry⟩ := List.mem_map.mp (List.mem_dedup.mp hy)
      exact hry ▸ h r hr
    obtain ⟨a, rfl⟩ := Option.isSome_iff_exists.mp hxs
    obtain ⟨b, rfl⟩ := Option.isSome_iff_exists.mp hys
    simpa [jsObjKey] using hxy
  have hsum := objOfGroups_sum (groupCounts (rows.map (·.sourceType))) [] hkeys (by simp)
  rw [objOfGroups, hsum]
  unfold groupCounts
  simp only [List.map_nil, List.sum_nil, Nat.zero_add, List.map_map]
  have hcomp : ((fun g : Option String × Nat => g.2) ∘
      fun v => (v, (rows.map (·.sourceType)).count v)) =
      fun v => (rows.map (·.sourceType)).count v := rfl
  rw [hcomp, sum_dedup_count, List.length_map]

/-- Closed instance of the C9 theorem on the sample store (all three sample
rows have a source_type). -/
theorem stats_total_eq_source_type_sum_witness :
    ((statsOf demoStore).content_by_source_type.map fun kv => kv.2).sum =
      (statsOf demoStore).total_content :=
  stats_total_eq_source_type_sum demoStore (by decide)

/-- C10: a get-by-id request for an uncached id with no matching row yields
the 404 with no cache write, leaving the cache unchanged — so an identical
subsequent request still issues the store query — and any cache write the
handler ever performs stores a record found in the store whose id is the
requested one. -/
theorem byId_404_no_cache_write :
    (∀ cache rows id, cacheFind cache (getByIdCacheKey id) = none →
      rows.filter (fun r => r.id == id) = [] →
      (runById cache rows id).1 = .notFound "Content not found" ∧
      cacheWrites (runById cache rows id).2 = [] ∧
      cacheAfter cache (runById cache rows id).2 = cache ∧
      storeQueries (runById (cacheAfter cache (runById cache rows id).2) rows id).2 =
        [[PgVal.str id]]) ∧
    (∀ env id k ttl b, Effect.cacheSet k ttl b ∈ (byIdHandler env id).2 →
      ∃ rows r, env.store = .ok rows ∧ r ∈ rows ∧ r.id = id ∧ b = Body.record r) := by
  constructor
  · intro cache rows id hfind hfilter
    have hrun : runById cache rows id =
        (.notFound "Content not found",
         [.cacheGet (getByIdCacheKey id), .storeQuery [.str id]]) := by
      simp [runById, byIdHandler, hfind, hfilter]
    refine ⟨by rw [hrun], by rw [hrun]; rfl, ?_, ?_⟩
    · rw [hrun]
      simp [cacheAfter]
    · rw [hrun]
      simp only [cacheAfter, List.foldl_cons, List.foldl_nil]
      rw [hrun]
      rfl
  · intro env id k ttl b hmem
    obtain ⟨cg, st, cs⟩ := env
    cases cg with
    | error e => simp [byIdHandler] at hmem
    | ok c =>
      cases c with
      | some b0 => simp [byIdHandler] at hmem
      | none =>
        cases st with
        | error e => simp [byIdHandler] at hmem
        | ok rows =>
          cases hf : rows.filter (fun r => r.id == id) with
          | nil => simp [byIdHandler, hf] at hmem
          | cons r rest =>
            have hr : r ∈ rows ∧ (r.id == id) = true :=
              List.mem_filter.mp (hf ▸ List.mem_cons_self r rest)
            have hb : b = Body.record r := by
              cases cs with
              | error e =>
                simp [byIdHandler, hf] at hmem
                exact hmem.2.2
              | ok u =>
                simp [byIdHandler, hf] at hmem
                exact hmem.2.2
            exact ⟨rows, r, rfl, hr.1, by simpa using hr.2, hb⟩

/-- Closed instance of the C10 theorem: an empty store and empty cache give
the 404 and leave the cache empty. -/
theorem byId_404_no_cache_write_witness :
    (runById [] [] "9").1 = .notFound "Content not found" :=
  (byId_404_no_cache_write.1 [] [] "9" rfl rfl).1

end CW
